import Mathlib

/-!
Verification of `src/data_fetcher.py` (class `ExerciseDataFetcher`) from the
Gymmando data repository: a shallow embedding of the record model and of the
operations `fetch_github_exercises`, `analyze_exercises`, `filter_exercises`,
`get_exercise_by_name` and `export_for_gymmando`, with theorems settling the
specification's claims about them.
-/

namespace Gymmando

/-- An exercise record, embedding the Python dict handled by the module.
Each of the ten fields used by the code is `Option`-valued: `none` stands for
an absent key (or a JSON `null`), mirroring `dict.get` returning `None`.
`extra` stands for any further top-level keys of the source record, which the
code never inspects and the reduced export drops. -/
structure ExerciseRecord where
  id : Option String
  name : Option String
  equipment : Option String
  level : Option String
  category : Option String
  force : Option String
  mechanic : Option String
  primaryMuscles : Option (List String)
  secondaryMuscles : Option (List String)
  instructions : Option (List String)
  extra : List (String × String)
deriving DecidableEq, Repr

/-- Python truthiness of an optional-string argument: `if equipment:` is
False exactly for `None` and for the empty string. -/
def truthy : Option String → Bool
  | none => false
  | some s => !(s == "")

/-- Embedding of `filter_exercises` (src/data_fetcher.py lines 72-86): the
three criteria are applied one after the other, each one only when truthy,
each stage comparing `e.get('equipment')`/`e.get('level')` by equality and
testing membership of the muscle in `e.get('primaryMuscles', [])`. -/
def filter_exercises (exercises : List ExerciseRecord)
    (equipment level muscle : Option String) : List ExerciseRecord :=
  let f1 := if truthy equipment
    then exercises.filter (fun e => e.equipment == equipment)
    else exercises
  let f2 := if truthy level
    then f1.filter (fun e => e.level == level)
    else f1
  let f3 := if truthy muscle
    then f2.filter (fun e => (e.primaryMuscles.getD []).contains (muscle.getD ""))
    else f2
  f3

/-- Embedding of Python `str.lower()`: lowercase each character. -/
def pyLower (s : String) : String := ⟨s.data.map Char.toLower⟩

/-- Embedding of the Python substring test `needle in hay`: some tail of
`hay` starts with `needle` (so the empty needle is contained in every
string, including the empty one). -/
def strContains (hay needle : String) : Bool :=
  hay.data.tails.any (fun t => needle.data.isPrefixOf t)

/-- The per-record predicate of `get_exercise_by_name`: the lowercased query
occurs in the lowercased `name` field, an absent `name` read as `''`. -/
def matchesName (query : String) (exercise : ExerciseRecord) : Bool :=
  strContains (pyLower (exercise.name.getD "")) (pyLower query)

/-- Embedding of `get_exercise_by_name` (src/data_fetcher.py lines 88-94):
first record whose name contains the query case-insensitively, else `None`. -/
def get_exercise_by_name (exercises : List ExerciseRecord)
    (name : String) : Option ExerciseRecord :=
  exercises.find? (matchesName name)

/-- The spec's per-criterion test for `equipment` and `level`: an
unsupplied criterion always passes; a supplied one requires exact equality
with the record's field, so an absent field never matches. -/
def criterionMatches (c : Option String) (field : Option String) : Bool :=
  match c with
  | some s => field == some s
  | none => true

/-- The spec's muscle criterion: an unsupplied criterion always passes; a
supplied one must be an element of `primaryMuscles`, an absent field read
as the empty sequence (which never matches). -/
def muscleMatches (c : Option String) (muscles : Option (List String)) : Bool :=
  match c with
  | some s => (muscles.getD []).contains s
  | none => true

/-- The reduced record produced by `export_for_gymmando`: exactly the ten
fixed fields, the three list-valued ones defaulted to `[]`, no `extra`. -/
structure GymmandoRecord where
  id : Option String
  name : Option String
  equipment : Option String
  level : Option String
  primaryMuscles : List String
  secondaryMuscles : List String
  instructions : List String
  category : Option String
  force : Option String
  mechanic : Option String
deriving DecidableEq, Repr

/-- The per-record projection built in the loop body of `export_for_gymmando`
(src/data_fetcher.py lines 102-113). -/
def simplify (ex : ExerciseRecord) : GymmandoRecord :=
  { id := ex.id
    name := ex.name
    equipment := ex.equipment
    level := ex.level
    primaryMuscles := ex.primaryMuscles.getD []
    secondaryMuscles := ex.secondaryMuscles.getD []
    instructions := ex.instructions.getD []
    category := ex.category
    force := ex.force
    mechanic := ex.mechanic }

/-- Embedding of `export_for_gymmando` (src/data_fetcher.py lines 96-123):
the append loop over `exercises` is a map of the projection. The file write
that follows is I/O and outside the value-level model. -/
def export_for_gymmando (exercises : List ExerciseRecord) : List GymmandoRecord :=
  exercises.map simplify

/-- First-seen order of the distinct values of a list. -/
def firstSeen (vals : List String) : List String :=
  vals.foldl (fun acc v => if v ∈ acc then acc else acc ++ [v]) []

/-- Modelled from the spec: `pandas.Series.value_counts` as used by
`analyze_exercises` — pandas is an external library, so its behaviour is
taken from the spec's words (§4.3): count per distinct value, sorted
descending by count, ties broken by first-seen order (stable sort); the
caller already dropped absent values. `List.insertionSort` with the
non-strict relation is a stable sort. -/
def value_counts (vals : List String) : List (String × Nat) :=
  List.insertionSort (fun a b => b.2 ≤ a.2)
    ((firstSeen vals).map (fun v => (v, vals.count v)))

/-- The analysis report: one optional breakdown per configured field,
`none` when the column is absent from the whole dataset. -/
structure AnalysisReport where
  equipment : Option (List (String × Nat))
  level : Option (List (String × Nat))
  primaryMuscles : Option (List (String × Nat))
deriving DecidableEq, Repr

/-- Embedding of `analyze_exercises` (src/data_fetcher.py lines 39-70).
A `pd.json_normalize` column exists iff some record carries the key
(`'equipment' in df.columns`); `value_counts` drops the NaN cells of
records missing the key, hence the `filterMap`. For `primaryMuscles` the
code extends one list with every row that is a list (NaN rows skipped,
hence `getD []`) and counts the flattened multiset. -/
def analyze_exercises (exercises : List ExerciseRecord) : AnalysisReport :=
  { equipment := if exercises.any (fun e => e.equipment.isSome)
      then some (value_counts (exercises.filterMap (fun e => e.equipment)))
      else none
    level := if exercises.any (fun e => e.level.isSome)
      then some (value_counts (exercises.filterMap (fun e => e.level)))
      else none
    primaryMuscles := if exercises.any (fun e => e.primaryMuscles.isSome)
      then some (value_counts
        (exercises.flatMap (fun e => e.primaryMuscles.getD [])))
      else none }

/-- Errors of the fetch step (spec §7 taxonomy). -/
inductive FetchError where
  | transportError : FetchError
  | httpStatusError : Nat → FetchError
deriving DecidableEq, Repr

/-- An HTTP response, its body already deserialized as the JSON array of
records that `response.json()` yields on this endpoint. -/
structure HttpResponse where
  status : Nat
  body : List ExerciseRecord
deriving DecidableEq, Repr

/-- Modelled from the spec: httpx `Response.raise_for_status` — httpx is an
external library; per the spec (§4.1, §7) it raises `HTTPStatusError`
exactly when the status indicates failure, i.e. is not a 2xx success. -/
def raise_for_status (resp : HttpResponse) : Except FetchError HttpResponse :=
  if 200 ≤ resp.status ∧ resp.status < 300
    then Except.ok resp
    else Except.error (FetchError.httpStatusError resp.status)

/-- Embedding of `fetch_github_exercises` (src/data_fetcher.py lines 14-37):
the GET either fails at transport level (`conn = .error`) or produces a
response; `raise_for_status` is called once (no retry) and its error
propagates; on success the deserialized body is returned. The JSON/CSV file
writes are I/O and outside the value-level model. -/
def fetch_github_exercises (conn : Except Unit HttpResponse) :
    Except FetchError (List ExerciseRecord) :=
  match conn with
  | Except.error _ => Except.error FetchError.transportError
  | Except.ok resp =>
    match raise_for_status resp with
    | Except.error e => Except.error e
    | Except.ok r => Except.ok r.body

/-- A record with every optional field absent. -/
def emptyRecord : ExerciseRecord :=
  { id := none, name := none, equipment := none, level := none
    category := none, force := none, mechanic := none
    primaryMuscles := none, secondaryMuscles := none, instructions := none
    extra := [] }

/-- First record of the spec §8 example dataset. -/
def benchPress : ExerciseRecord :=
  { emptyRecord with
    id := some "1", name := some "Bench Press"
    equipment := some "barbell", level := some "intermediate"
    primaryMuscles := some ["chest"] }

/-- Second record of the spec §8 example dataset. -/
def dumbbellFly : ExerciseRecord :=
  { emptyRecord with
    id := some "2", name := some "Dumbbell Fly"
    equipment := some "dumbbell", level := some "beginner"
    primaryMuscles := some ["chest"] }

/-- The spec §8 example dataset. -/
def exampleDataset : List ExerciseRecord := [benchPress, dumbbellFly]

/-- C7. `filter` with no criteria supplied returns the dataset unchanged. -/
theorem filter_exercises_no_criteria_identity (D : List ExerciseRecord) :
    filter_exercises D none none none = D := rfl

/-- C10. An empty-string criterion is falsy in Python, so the corresponding
filter stage is skipped entirely: every record of `D` is returned, whatever
its fields hold, for each of the three criteria. -/
theorem filter_exercises_empty_string_criterion (D : List ExerciseRecord) :
    filter_exercises D (some "") none none = D ∧
    filter_exercises D none (some "") none = D ∧
    filter_exercises D none none (some "") = D := by
  refine ⟨?_, ?_, ?_⟩ <;> simp [filter_exercises, truthy]

/-- C2. `filter_exercises` returns a sublist of its input: every record of
the result occurs in `D`, in the same relative order. (The result is a
fresh list; the embedding is pure, as is the Python list comprehension.) -/
theorem filter_exercises_sublist (D : List ExerciseRecord)
    (equipment level muscle : Option String) :
    (filter_exercises D equipment level muscle).Sublist D := by
  have h : ∀ (b : Bool) (p : ExerciseRecord → Bool) (l : List ExerciseRecord),
      (if b then l.filter p else l).Sublist l := by
    intro b p l
    cases b
    · exact List.Sublist.refl l
    · exact List.filter_sublist l
  exact List.Sublist.trans (h _ _ _) (List.Sublist.trans (h _ _ _) (h _ _ _))

/-- C8. Filtering twice with the same equipment criterion equals filtering
once. -/
theorem filter_exercises_equipment_idempotent (D : List ExerciseRecord)
    (E : Option String) :
    filter_exercises (filter_exercises D E none none) E none none =
      filter_exercises D E none none := by
  rcases E with _ | s
  · rfl
  · by_cases hs : s = ""
    · subst hs
      rfl
    · simp [filter_exercises, truthy, hs, List.filter_filter, Bool.and_self]

/-- An `if truthy then filter else skip` stage is one filter with a weakened
predicate. -/
theorem filter_stage_eq (b : Bool) (p : ExerciseRecord → Bool)
    (l : List ExerciseRecord) :
    (if b then l.filter p else l) = l.filter (fun e => !b || p e) := by
  cases b <;> simp

/-- A rotation of a triple conjunction of Booleans. -/
theorem bool_and_rot (a b c : Bool) : (c && (b && a)) = (a && (b && c)) := by
  cases a <;> cases b <;> cases c <;> rfl

/-- Pointwise form of the conjunctive filter predicate: the sequential
stage predicates, taken together, agree with the claim's per-criterion
conjunction once every supplied criterion is a non-empty string. -/
theorem claim_pred_eq (e : ExerciseRecord)
    (equipment level muscle : Option String)
    (heq : equipment ≠ some "") (hlv : level ≠ some "")
    (hmu : muscle ≠ some "") :
    ((!truthy muscle ||
        (e.primaryMuscles.getD []).contains (muscle.getD "")) &&
      ((!truthy level || e.level == level) &&
        (!truthy equipment || e.equipment == equipment))) =
      (criterionMatches equipment e.equipment &&
        (criterionMatches level e.level &&
          muscleMatches muscle e.primaryMuscles)) := by
  rcases equipment with _ | se
  · rcases level with _ | sl
    · rcases muscle with _ | sm
      · rfl
      · have h3 : (sm == "") = false :=
          beq_eq_false_iff_ne.mpr (fun h => hmu (by rw [h]))
        simp only [truthy, criterionMatches, muscleMatches, h3,
          Bool.not_false, Bool.not_true, Bool.false_or,
          Bool.true_or, Bool.true_and, Bool.and_true, Option.getD_some]
    · have h2 : (sl == "") = false :=
        beq_eq_false_iff_ne.mpr (fun h => hlv (by rw [h]))
      rcases muscle with _ | sm
      · simp only [truthy, criterionMatches, muscleMatches, h2,
          Bool.not_false, Bool.not_true, Bool.false_or,
          Bool.true_or, Bool.true_and, Bool.and_true, Option.getD_some]
      · have h3 : (sm == "") = false :=
          beq_eq_false_iff_ne.mpr (fun h => hmu (by rw [h]))
        simp only [truthy, criterionMatches, muscleMatches, h2, h3,
          Bool.not_false, Bool.not_true,
          Bool.false_or, Bool.true_or, Bool.true_and, Bool.and_true,
          Option.getD_some]
        exact Bool.and_comm _ _
  · have h1 : (se == "") = false :=
      beq_eq_false_iff_ne.mpr (fun h => heq (by rw [h]))
    rcases level with _ | sl
    · rcases muscle with _ | sm
      · simp only [truthy, criterionMatches, muscleMatches, h1,
          Bool.not_false, Bool.not_true, Bool.false_or,
          Bool.true_or, Bool.true_and, Bool.and_true, Option.getD_some]
      · have h3 : (sm == "") = false :=
          beq_eq_false_iff_ne.mpr (fun h => hmu (by rw [h]))
        simp only [truthy, criterionMatches, muscleMatches, h1, h3,
          Bool.not_false, Bool.not_true,
          Bool.false_or, Bool.true_or, Bool.true_and, Bool.and_true,
          Option.getD_some]
        exact Bool.and_comm _ _
    · have h2 : (sl == "") = false :=
        beq_eq_false_iff_ne.mpr (fun h => hlv (by rw [h]))
      rcases muscle with _ | sm
      · simp only [truthy, criterionMatches, muscleMatches, h1, h2,
          Bool.not_false, Bool.not_true,
          Bool.false_or, Bool.true_or, Bool.true_and, Bool.and_true,
          Option.getD_some]
        exact Bool.and_comm _ _
      · have h3 : (sm == "") = false :=
          beq_eq_false_iff_ne.mpr (fun h => hmu (by rw [h]))
        simp only [truthy, criterionMatches, muscleMatches, h1, h2, h3,
          Bool.not_false, Bool.not_true,
          Bool.false_or, Bool.true_or, Bool.true_and, Bool.and_true,
          Option.getD_some]
        exact bool_and_rot _ _ _

/-- C1. With every supplied criterion a real (non-empty) string, a record is
retained exactly when it meets all supplied criteria at once: equipment and
level by exact equality on the optional field (an absent field never equals
`some s`), muscle by membership in `primaryMuscles` read as `[]` when
absent. -/
theorem filter_exercises_conjunctive (D : List ExerciseRecord)
    (equipment level muscle : Option String)
    (heq : equipment ≠ some "") (hlv : level ≠ some "")
    (hmu : muscle ≠ some "") :
    filter_exercises D equipment level muscle =
      D.filter (fun e =>
        criterionMatches equipment e.equipment &&
          (criterionMatches level e.level &&
            muscleMatches muscle e.primaryMuscles)) := by
  have key : filter_exercises D equipment level muscle =
      D.filter (fun e =>
        (!truthy muscle ||
            (e.primaryMuscles.getD []).contains (muscle.getD "")) &&
          ((!truthy level || e.level == level) &&
            (!truthy equipment || e.equipment == equipment))) := by
    simp only [filter_exercises, filter_stage_eq]
    simp only [List.filter_filter]
  rw [key]
  exact List.filter_congr
    (fun e _ => claim_pred_eq e equipment level muscle heq hlv hmu)

/-- C1 witness: the spec §8 example — filtering on equipment `dumbbell`
keeps exactly the second record. -/
theorem filter_exercises_conjunctive_witness :
    filter_exercises exampleDataset (some "dumbbell") none none =
      [dumbbellFly] := by
  have h := filter_exercises_conjunctive exampleDataset (some "dumbbell")
    none none (by decide) (by decide) (by decide)
  rw [h]
  decide

/-- A successful `find?` splits the list at the first hit: everything
before it fails the predicate. -/
theorem find?_eq_some_first {α : Type} (p : α → Bool) (l : List α) (a : α)
    (h : l.find? p = some a) :
    ∃ l₁ l₂, l = l₁ ++ a :: l₂ ∧ ∀ x ∈ l₁, p x = false := by
  induction l with
  | nil => simp at h
  | cons x xs ih =>
    rw [List.find?_cons] at h
    cases hx : p x with
    | true =>
      rw [hx] at h
      have h' : some x = some a := h
      obtain rfl : x = a := Option.some.inj h'
      exact ⟨[], xs, rfl, by simp⟩
    | false =>
      rw [hx] at h
      obtain ⟨l₁, l₂, hsplit, hall⟩ := ih h
      refine ⟨x :: l₁, l₂, by rw [hsplit, List.cons_append], ?_⟩
      intro y hy
      rcases List.mem_cons.mp hy with rfl | hy'
      · exact hx
      · exact hall y hy'

/-- A record without a `name` field is read as the empty name, which does
not contain any non-empty query. -/
theorem matchesName_of_missing_name (q : String) (r : ExerciseRecord)
    (hq : q ≠ "") (hr : r.name = none) : matchesName q r = false := by
  have hqd : q.data ≠ [] := by
    intro h
    apply hq
    apply String.ext
    rw [h]
  obtain ⟨c, cs, hcc⟩ : ∃ c cs, q.data = c :: cs := by
    cases hq' : q.data with
    | nil => exact absurd hq' hqd
    | cons c cs => exact ⟨c, cs, rfl⟩
  rw [matchesName, hr]
  show strContains (pyLower "") (pyLower q) = false
  simp only [strContains, pyLower, hcc]
  rfl

/-- C3. `get_exercise_by_name` returns the first record, in dataset order,
whose lowercased name contains the lowercased query: a returned record
belongs to the dataset, matches, and everything before it fails; `none`
comes back exactly when nothing matches (a normal value, never an error);
a record missing its `name` never matches a non-empty query; and the empty
dataset yields `none` for every query. -/
theorem get_exercise_by_name_spec (D : List ExerciseRecord) (q : String) :
    (∀ r, get_exercise_by_name D q = some r →
      r ∈ D ∧ matchesName q r = true ∧
        ∃ l₁ l₂, D = l₁ ++ r :: l₂ ∧ ∀ x ∈ l₁, matchesName q x = false) ∧
    (get_exercise_by_name D q = none ↔
      ∀ r ∈ D, matchesName q r = false) ∧
    (q ≠ "" → ∀ r ∈ D, r.name = none → matchesName q r = false) ∧
    get_exercise_by_name ([] : List ExerciseRecord) q = none := by
  refine ⟨?_, ?_, ?_, rfl⟩
  · intro r hr
    exact ⟨List.mem_of_find?_eq_some hr, List.find?_some hr,
      find?_eq_some_first _ _ _ hr⟩
  · rw [get_exercise_by_name, List.find?_eq_none]
    simp only [Bool.not_eq_true]
  · intro hq r _ hr
    exact matchesName_of_missing_name q r hq hr

/-- C3 witness: on the spec §8 dataset, querying `"bench"` finds the first
record, which matches, with nothing failing before it. -/
theorem get_exercise_by_name_spec_witness :
    benchPress ∈ exampleDataset ∧ matchesName "bench" benchPress = true ∧
      ∃ l₁ l₂, exampleDataset = l₁ ++ benchPress :: l₂ ∧
        ∀ x ∈ l₁, matchesName "bench" x = false :=
  (get_exercise_by_name_spec exampleDataset "bench").1 benchPress (by decide)

/-- C4. The reduced export has the same length as its input and the `i`-th
output record carries exactly the ten fixed fields of the `i`-th input
record: the three list-valued ones defaulted to `[]` when absent, the seven
scalar ones kept as-is (so an absent one stays the `none` marker); the
output type has no room for any further field of the input. -/
theorem export_for_gymmando_spec (D : List ExerciseRecord) :
    (export_for_gymmando D).length = D.length ∧
    ∀ (i : Nat) (hi : i < D.length)
      (ho : i < (export_for_gymmando D).length),
      ((export_for_gymmando D).get ⟨i, ho⟩).id = (D.get ⟨i, hi⟩).id ∧
      ((export_for_gymmando D).get ⟨i, ho⟩).name = (D.get ⟨i, hi⟩).name ∧
      ((export_for_gymmando D).get ⟨i, ho⟩).equipment =
        (D.get ⟨i, hi⟩).equipment ∧
      ((export_for_gymmando D).get ⟨i, ho⟩).level = (D.get ⟨i, hi⟩).level ∧
      ((export_for_gymmando D).get ⟨i, ho⟩).primaryMuscles =
        ((D.get ⟨i, hi⟩).primaryMuscles).getD [] ∧
      ((export_for_gymmando D).get ⟨i, ho⟩).secondaryMuscles =
        ((D.get ⟨i, hi⟩).secondaryMuscles).getD [] ∧
      ((export_for_gymmando D).get ⟨i, ho⟩).instructions =
        ((D.get ⟨i, hi⟩).instructions).getD [] ∧
      ((export_for_gymmando D).get ⟨i, ho⟩).category =
        (D.get ⟨i, hi⟩).category ∧
      ((export_for_gymmando D).get ⟨i, ho⟩).force = (D.get ⟨i, hi⟩).force ∧
      ((export_for_gymmando D).get ⟨i, ho⟩).mechanic =
        (D.get ⟨i, hi⟩).mechanic := by
  refine ⟨by simp [export_for_gymmando], ?_⟩
  intro i hi ho
  have hg : (export_for_gymmando D).get ⟨i, ho⟩ =
      simplify (D.get ⟨i, hi⟩) := by
    simp [export_for_gymmando, List.get_eq_getElem, List.getElem_map]
  rw [hg]
  exact ⟨rfl, rfl, rfl, rfl, rfl, rfl, rfl, rfl, rfl, rfl⟩

/-- C4 witness: on the spec §8 dataset the export keeps the length, and at
index 0 the projected `id` and the defaulted `secondaryMuscles` agree with
the input record. -/
theorem export_for_gymmando_spec_witness :
    (export_for_gymmando exampleDataset).length = exampleDataset.length ∧
    ((export_for_gymmando exampleDataset).get ⟨0, by decide⟩).id =
      (exampleDataset.get ⟨0, by decide⟩).id ∧
    ((export_for_gymmando exampleDataset).get ⟨0, by decide⟩).secondaryMuscles =
      ((exampleDataset.get ⟨0, by decide⟩).secondaryMuscles).getD [] := by
  have h := export_for_gymmando_spec exampleDataset
  have h0 := h.2 0 (by decide) (by decide)
  exact ⟨h.1, h0.1, h0.2.2.2.2.2.1⟩

/-- The empty needle occurs in every haystack (Python: `"" in s` is `True`
for every `s`). -/
theorem strContains_empty_needle (hay : String) : strContains hay "" = true := by
  rw [strContains]
  rw [List.any_eq_true]
  refine ⟨hay.data, ?_, ?_⟩
  · rw [List.mem_tails]
  · exact List.isPrefixOf_iff_prefix.mpr List.nil_prefix

/-- C5 counterexample: on a dataset whose first record has no name at all,
the empty query returns that first record — not the first record with a
non-empty name, which sits at index 1. -/
theorem get_exercise_by_name_empty_query_counterexample :
    get_exercise_by_name [emptyRecord, benchPress] "" = some emptyRecord ∧
    emptyRecord.name = none ∧
    (benchPress.name).getD "" ≠ "" ∧
    get_exercise_by_name [emptyRecord, benchPress] "" ≠ some benchPress := by
  decide

/-- C5 (amended). The empty query matches every record — the empty string
is a substring of every string, also of an empty or missing name — so
`get_exercise_by_name D ""` returns the head of the dataset (`none` on the
empty dataset). -/
theorem get_exercise_by_name_empty_query (D : List ExerciseRecord) :
    get_exercise_by_name D "" = D.head? := by
  induction D with
  | nil => rfl
  | cons x xs _ =>
    rw [get_exercise_by_name, List.find?_cons]
    have hx : matchesName "" x = true := by
      have : pyLower "" = "" := rfl
      rw [matchesName, this]
      exact strContains_empty_needle _
    rw [hx]
    rfl

/-- Membership through the first-seen fold, generalized over the
accumulator. -/
theorem mem_firstSeen_aux (vals : List String) :
    ∀ (acc : List String) (x : String),
      (x ∈ vals.foldl (fun acc v => if v ∈ acc then acc else acc ++ [v]) acc ↔
        x ∈ acc ∨ x ∈ vals) := by
  induction vals with
  | nil =>
    intro acc x
    simp
  | cons v vs ih =>
    intro acc x
    rw [List.foldl_cons, ih]
    by_cases hv : v ∈ acc
    · rw [if_pos hv]
      constructor
      · rintro (h | h)
        · exact Or.inl h
        · exact Or.inr (List.mem_cons_of_mem v h)
      · rintro (h | h)
        · exact Or.inl h
        · rcases List.mem_cons.mp h with rfl | h'
          · exact Or.inl hv
          · exact Or.inr h'
    · rw [if_neg hv]
      simp [List.mem_append, or_assoc]

/-- `firstSeen` has the same members as its input. -/
theorem mem_firstSeen (vals : List String) (x : String) :
    x ∈ firstSeen vals ↔ x ∈ vals := by
  rw [firstSeen, mem_firstSeen_aux]
  simp

/-- Every pair of `value_counts` is a value of the input together with its
multiplicity there. -/
theorem value_counts_mem (vals : List String) (p : String × Nat)
    (hp : p ∈ value_counts vals) : p.1 ∈ vals ∧ p.2 = vals.count p.1 := by
  have h1 : p ∈ (firstSeen vals).map (fun v => (v, vals.count v)) :=
    (List.perm_insertionSort _ _).mem_iff.mp hp
  rw [List.mem_map] at h1
  obtain ⟨v, hv, hpe⟩ := h1
  subst hpe
  exact ⟨(mem_firstSeen vals v).mp hv, rfl⟩

/-- `value_counts` is sorted by descending count. -/
theorem value_counts_sorted (vals : List String) :
    (value_counts vals).Sorted (fun a b => b.2 ≤ a.2) := by
  haveI : IsTotal (String × Nat) (fun a b => b.2 ≤ a.2) :=
    ⟨fun a b => Nat.le_total b.2 a.2⟩
  haveI : IsTrans (String × Nat) (fun a b => b.2 ≤ a.2) :=
    ⟨fun a b c hab hbc => Nat.le_trans hbc hab⟩
  rw [value_counts]
  exact List.sorted_insertionSort _ _

/-- C6. The analyzer: on the spec §8 example it reports equipment counts
`barbell ↦ 1, dumbbell ↦ 1` and primary-muscle counts `chest ↦ 2`; a field
carried by no record of the dataset is skipped silently (`none`) for each
of the three configured fields; and whenever a breakdown is produced, it is
sorted descending by count and each entry pairs a present value with its
exact multiplicity — for `equipment` and `level` over the records carrying
the field, for `primaryMuscles` over the flattened multiset of all lists. -/
theorem analyze_exercises_spec :
    ((analyze_exercises exampleDataset).equipment =
        some [("barbell", 1), ("dumbbell", 1)] ∧
      (analyze_exercises exampleDataset).primaryMuscles =
        some [("chest", 2)]) ∧
    (∀ D : List ExerciseRecord, (∀ r ∈ D, r.equipment = none) →
      (analyze_exercises D).equipment = none) ∧
    (∀ D : List ExerciseRecord, (∀ r ∈ D, r.level = none) →
      (analyze_exercises D).level = none) ∧
    (∀ D : List ExerciseRecord, (∀ r ∈ D, r.primaryMuscles = none) →
      (analyze_exercises D).primaryMuscles = none) ∧
    (∀ (D : List ExerciseRecord) (l : List (String × Nat)),
      (analyze_exercises D).equipment = some l →
      l.Sorted (fun a b => b.2 ≤ a.2) ∧
        ∀ p ∈ l, p.1 ∈ D.filterMap (fun e => e.equipment) ∧
          p.2 = (D.filterMap (fun e => e.equipment)).count p.1) ∧
    (∀ (D : List ExerciseRecord) (l : List (String × Nat)),
      (analyze_exercises D).level = some l →
      l.Sorted (fun a b => b.2 ≤ a.2) ∧
        ∀ p ∈ l, p.1 ∈ D.filterMap (fun e => e.level) ∧
          p.2 = (D.filterMap (fun e => e.level)).count p.1) ∧
    (∀ (D : List ExerciseRecord) (l : List (String × Nat)),
      (analyze_exercises D).primaryMuscles = some l →
      l.Sorted (fun a b => b.2 ≤ a.2) ∧
        ∀ p ∈ l, p.1 ∈ D.flatMap (fun e => e.primaryMuscles.getD []) ∧
          p.2 = (D.flatMap (fun e => e.primaryMuscles.getD [])).count p.1) := by
  refine ⟨⟨by decide, by decide⟩, ?_, ?_, ?_, ?_, ?_, ?_⟩
  · intro D h
    have hc : D.any (fun e => e.equipment.isSome) = false := by
      rw [List.any_eq_false]
      intro x hx
      rw [h x hx]
      simp
    simp [analyze_exercises, hc]
  · intro D h
    have hc : D.any (fun e => e.level.isSome) = false := by
      rw [List.any_eq_false]
      intro x hx
      rw [h x hx]
      simp
    simp [analyze_exercises, hc]
  · intro D h
    have hc : D.any (fun e => e.primaryMuscles.isSome) = false := by
      rw [List.any_eq_false]
      intro x hx
      rw [h x hx]
      simp
    simp [analyze_exercises, hc]
  · intro D l h
    simp only [analyze_exercises] at h
    by_cases hc : D.any (fun e => e.equipment.isSome) = true
    · rw [if_pos hc] at h
      obtain rfl :
          value_counts (D.filterMap (fun e => e.equipment)) = l :=
        Option.some.inj h
      exact ⟨value_counts_sorted _, fun p hp => value_counts_mem _ p hp⟩
    · rw [if_neg hc] at h
      exact absurd h (by simp)
  · intro D l h
    simp only [analyze_exercises] at h
    by_cases hc : D.any (fun e => e.level.isSome) = true
    · rw [if_pos hc] at h
      obtain rfl :
          value_counts (D.filterMap (fun e => e.level)) = l :=
        Option.some.inj h
      exact ⟨value_counts_sorted _, fun p hp => value_counts_mem _ p hp⟩
    · rw [if_neg hc] at h
      exact absurd h (by simp)
  · intro D l h
    simp only [analyze_exercises] at h
    by_cases hc : D.any (fun e => e.primaryMuscles.isSome) = true
    · rw [if_pos hc] at h
      obtain rfl :
          value_counts (D.flatMap (fun e => e.primaryMuscles.getD [])) = l :=
        Option.some.inj h
      exact ⟨value_counts_sorted _, fun p hp => value_counts_mem _ p hp⟩
    · rw [if_neg hc] at h
      exact absurd h (by simp)

/-- C6 witness: a dataset with no equipment anywhere is skipped, and the
§8 muscle breakdown comes out as `chest ↦ 2`. -/
theorem analyze_exercises_spec_witness :
    (analyze_exercises [emptyRecord]).equipment = none ∧
      (analyze_exercises exampleDataset).primaryMuscles =
        some [("chest", 2)] :=
  ⟨analyze_exercises_spec.2.1 [emptyRecord] (by decide),
    analyze_exercises_spec.1.2⟩

/-- C9. The fetch raises `HTTPStatusError` exactly when the response status
is not a 2xx success — the error carries the status and propagates, there
being no retry — and on a 2xx status it returns the deserialized JSON array
that is the response body. -/
theorem fetch_github_exercises_spec (resp : HttpResponse) :
    (¬(200 ≤ resp.status ∧ resp.status < 300) →
      fetch_github_exercises (Except.ok resp) =
        Except.error (FetchError.httpStatusError resp.status)) ∧
    ((200 ≤ resp.status ∧ resp.status < 300) →
      fetch_github_exercises (Except.ok resp) = Except.ok resp.body) := by
  constructor <;> intro h <;>
    simp [fetch_github_exercises, raise_for_status, h]

/-- C9 witness: a 404 response raises with its status; a 200 response
yields its body. -/
theorem fetch_github_exercises_spec_witness :
    fetch_github_exercises (Except.ok ⟨404, []⟩) =
      Except.error (FetchError.httpStatusError 404) ∧
    fetch_github_exercises (Except.ok ⟨200, exampleDataset⟩) =
      Except.ok exampleDataset :=
  ⟨(fetch_github_exercises_spec ⟨404, []⟩).1 (by decide),
    (fetch_github_exercises_spec ⟨200, exampleDataset⟩).2 (by decide)⟩

end Gymmando
